import Mathlib

/-!
Verification of the `StockDatabase` record store of `src/stock_api.py` and the
stats computation shared by `src/stock_api.py::get_stats` and
`src/stock_mcp_server.py::get_stock_stats_tool`.

Modelling conventions:
* Python floats are modelled as exact rationals (`ℚ`); the numeric claims under
  scrutiny only involve values and arithmetic that are exact in both models.
* The persisted JSON dictionary (keys = record ids, insertion ordered) is
  modelled as an association list `List (String × StockRec)`; Python dicts
  preserve insertion order, assignment to an existing key keeps its position,
  and assignment to a fresh key appends.
* `datetime.now()` and `uuid.uuid4()` are environment inputs; the operations
  take the produced timestamp/id as explicit parameters.
* Python's `str.upper` is modelled characterwise (`pyUpper`), which agrees
  with it on the ASCII data treated here; `ValueError` messages are modelled
  structurally (the offending symbol is carried as a field of the error
  value).
-/

namespace StockApi

/-- The `Stock` pydantic model of src/stock_api.py (lines 12–21): one stored
record.  `price`, `change`, `market_cap` are floats (modelled as `ℚ`),
`volume` an int, timestamps ISO strings. -/
structure StockRec where
  id : String
  symbol : String
  name : String
  price : ℚ
  change : ℚ
  volume : Int
  market_cap : ℚ
  created_at : String
  updated_at : String
  deriving Repr, DecidableEq

/-- The `StockCreate` input model (lines 23–29): `change`, `volume`,
`market_cap` default to zero when omitted by the caller. -/
structure StockCreate where
  symbol : String
  name : String
  price : ℚ
  change : ℚ := 0
  volume : Int := 0
  market_cap : ℚ := 0
  deriving Repr, DecidableEq

/-- The `StockUpdate` partial-update model (lines 31–37): every field optional.
`some v` models a field explicitly set to the value `v`; `none` models a field
left unset (Pydantic `exclude_unset` drops it from the update dict). -/
structure StockUpdate where
  symbol : Option String := none
  name : Option String := none
  price : Option ℚ := none
  change : Option ℚ := none
  volume : Option Int := none
  market_cap : Option ℚ := none
  deriving Repr, DecidableEq

/-- Python `str.upper`, modelled characterwise: uppercase each character
(ASCII; the kernel-reducible counterpart of `String.toUpper`). -/
def pyUpper (s : String) : String := ⟨s.data.map Char.toUpper⟩

/-- Errors raised by the store.  `duplicateSymbol s` models
`ValueError(f"股票代码 {s} 已存在")`, carrying the offending symbol. -/
inductive DbError where
  | duplicateSymbol (symbol : String)
  deriving Repr, DecidableEq

/-- The decoded persisted collection: a JSON object keyed by record id,
insertion ordered, as a Python dict is. -/
abbrev Store := List (String × StockRec)

/-- Python `data[k]` / `k in data` lookup: the (unique) entry with key `k`. -/
def dictLookup (store : Store) (k : String) : Option StockRec :=
  match store.find? (fun kv => kv.1 == k) with
  | some kv => some kv.2
  | none => none

/-- Python `k in data`. -/
def dictContains (store : Store) (k : String) : Bool :=
  store.any (fun kv => kv.1 == k)

/-- Python `data[k] = v`: replace in place when the key is present (keeping its
position, as a dict does), append when it is fresh. -/
def dictSet : Store → String → StockRec → Store
  | [], k, v => [(k, v)]
  | (k', v') :: rest, k, v =>
    if k' == k then (k', v) :: rest else (k', v') :: dictSet rest k v

/-- Python `del data[k]` on a dict (keys unique): drop the entry with key `k`. -/
def dictRemove : Store → String → Store
  | [], _ => []
  | (k', v') :: rest, k =>
    if k' == k then rest else (k', v') :: dictRemove rest k

/-- `StockDatabase.create_stock` (src/stock_api.py lines 63–88), between the
load and the save.  Note the duplicate scan compares the RAW input symbol
(`stock['symbol'] == stock_data.symbol`) against the stored symbols, while the
stored symbol is always uppercased (`stock_data.symbol.upper()`).  `newId` is
the generated uuid, `now` the current timestamp. -/
def create_stock (store : Store) (input : StockCreate) (newId now : String) :
    Except DbError (StockRec × Store) :=
  if store.any (fun kv => kv.2.symbol == input.symbol) then
    Except.error (DbError.duplicateSymbol input.symbol)
  else
    let stock : StockRec :=
      { id := newId
        symbol := pyUpper input.symbol
        name := input.name
        price := input.price
        change := input.change
        volume := input.volume
        market_cap := input.market_cap
        created_at := now
        updated_at := now }
    Except.ok (stock, dictSet store newId stock)

/-- `StockDatabase.get_all_stocks` (lines 90–92): `data.values()` in insertion
order. -/
def get_all_stocks (store : Store) : List StockRec :=
  store.map (fun kv => kv.2)

/-- `StockDatabase.get_stock` (lines 94–98). -/
def get_stock (store : Store) (stock_id : String) : Option StockRec :=
  dictLookup store stock_id

/-- `StockDatabase.get_stock_by_symbol` (lines 100–105): first record whose
uppercased symbol equals the uppercased query. -/
def get_stock_by_symbol (store : Store) (symbol : String) : Option StockRec :=
  match store.find? (fun kv => pyUpper kv.2.symbol == pyUpper symbol) with
  | some kv => some kv.2
  | none => none

/-- The field-application loop of `update_stock` (lines 121–125): each present
field overwrites the stored one; a present non-empty symbol is uppercased, a
present empty symbol is stored as-is (the `value` truthiness test fails). -/
def applyPatch (r : StockRec) (p : StockUpdate) : StockRec :=
  let r1 := match p.symbol with
    | some v => { r with symbol := if v ≠ "" then pyUpper v else v }
    | none => r
  let r2 := match p.name with
    | some v => { r1 with name := v }
    | none => r1
  let r3 := match p.price with
    | some v => { r2 with price := v }
    | none => r2
  let r4 := match p.change with
    | some v => { r3 with change := v }
    | none => r3
  let r5 := match p.volume with
    | some v => { r4 with volume := v }
    | none => r4
  match p.market_cap with
  | some v => { r5 with market_cap := v }
  | none => r5

/-- `StockDatabase.update_stock` (lines 107–130).  Absent id ⇒ `ok none`
(Python returns `None`).  The duplicate check runs only when the patch symbol
is truthy (present AND non-empty), and compares uppercased symbols against
every OTHER entry.  On success the patched record gets `updated_at := now`
and is written back in place. -/
def update_stock (store : Store) (stock_id : String) (patch : StockUpdate)
    (now : String) : Except DbError (Option (StockRec × Store)) :=
  match dictLookup store stock_id with
  | none => Except.ok none
  | some stock0 =>
    let hasDup : Bool :=
      match patch.symbol with
      | some s =>
        decide (s ≠ "") &&
          store.any (fun kv => kv.1 != stock_id && pyUpper kv.2.symbol == pyUpper s)
      | none => false
    if hasDup then
      Except.error (DbError.duplicateSymbol (patch.symbol.getD ""))
    else
      let stock1 := applyPatch stock0 patch
      let stock2 := { stock1 with updated_at := now }
      Except.ok (some (stock2, dictSet store stock_id stock2))

/-- The store state after an `update_stock` call: unchanged when the call
raised or found no record (nothing is saved), the saved state otherwise. -/
def postUpdateStore (store : Store) (stock_id : String) (patch : StockUpdate)
    (now : String) : Store :=
  match update_stock store stock_id patch now with
  | Except.ok (some (_, store')) => store'
  | Except.ok none => store
  | Except.error _ => store

/-- `StockDatabase.delete_stock` (lines 132–138): `(returned boolean, store
after the call)`. -/
def delete_stock (store : Store) (stock_id : String) : Bool × Store :=
  if dictContains store stock_id then
    (true, dictRemove store stock_id)
  else
    (false, store)

/-- The result shape of the stats computation (`get_stats` in
src/stock_api.py lines 245–262 and `get_stock_stats_tool` in
src/stock_mcp_server.py lines 288–314): on an empty store the dict has no
max/min keys, modelled by `none`. -/
structure StatsResult where
  total_count : Nat
  avg_price : ℚ
  total_market_cap : ℚ
  max_symbol : Option String
  min_symbol : Option String
  deriving Repr, DecidableEq

/-- Python `round(x, n)` rounds to the nearest integer with ties to even
(banker's rounding); modelled exactly on `ℚ`. -/
def roundHalfEven (q : ℚ) : ℤ :=
  if q - ⌊q⌋ < 1/2 then ⌊q⌋
  else if 1/2 < q - ⌊q⌋ then ⌊q⌋ + 1
  else if ⌊q⌋ % 2 = 0 then ⌊q⌋ else ⌊q⌋ + 1

/-- Python `round(x, 2)`: round to 2 decimal digits, ties to even. -/
def round2 (q : ℚ) : ℚ := (roundHalfEven (q * 100) : ℚ) / 100

/-- Python `max(stocks, key=lambda x: x.price)` on the non-empty list
`x :: xs`: scan left to right, replacing the current best only on a strictly
larger key — so the FIRST record attaining the maximum is kept. -/
def pyMax (x : StockRec) (xs : List StockRec) : StockRec :=
  xs.foldl (fun acc y => if acc.price < y.price then y else acc) x

/-- Python `min(stocks, key=lambda x: x.price)`: replace only on a strictly
smaller key, keeping the first record attaining the minimum. -/
def pyMin (x : StockRec) (xs : List StockRec) : StockRec :=
  xs.foldl (fun acc y => if y.price < acc.price then y else acc) x

/-- The stats computation (src/stock_api.py lines 248–262, identical in
src/stock_mcp_server.py lines 293–307): empty store ⇒ zeros and no max/min
symbols; otherwise count, mean price rounded to 2 digits, market-cap sum, and
the symbols of the max/min-price records. -/
def get_stats (stocks : List StockRec) : StatsResult :=
  match stocks with
  | [] =>
    { total_count := 0, avg_price := 0, total_market_cap := 0
      max_symbol := none, min_symbol := none }
  | x :: xs =>
    let total_count := (x :: xs).length
    let avg_price := ((x :: xs).map (fun st => st.price)).sum / total_count
    let total_market_cap := ((x :: xs).map (fun st => st.market_cap)).sum
    { total_count := total_count, avg_price := round2 avg_price
      total_market_cap := total_market_cap
      max_symbol := some (pyMax x xs).symbol
      min_symbol := some (pyMin x xs).symbol }

/-- JSON values, as produced by Python's `json.loads`: objects keep member
insertion order (first occurrence position, last occurrence value for
duplicate keys). -/
inductive Json where
  | null
  | bool (b : Bool)
  | num (q : ℚ)
  | str (s : String)
  | arr (elems : List Json)
  | obj (members : List (String × Json))
  deriving Repr

/-- Opening curly brace character. -/
def lbrace : Char := Char.ofNat 123

/-- Closing curly brace character. -/
def rbrace : Char := Char.ofNat 125

/-- JSON whitespace (as accepted between tokens by `json.loads`). -/
def jsonWs (c : Char) : Bool := c = ' ' || c = '\t' || c = '\n' || c = '\r'

/-- Drop leading JSON whitespace. -/
def skipWs : List Char → List Char
  | [] => []
  | c :: rest => if jsonWs c then skipWs rest else c :: rest

/-- Value of a decimal digit character, if any. -/
def digitVal? (c : Char) : Option Nat :=
  if 48 ≤ c.toNat ∧ c.toNat ≤ 57 then some (c.toNat - 48) else none

/-- Value of a hexadecimal digit character, if any. -/
def hexVal? (c : Char) : Option Nat :=
  if 48 ≤ c.toNat ∧ c.toNat ≤ 57 then some (c.toNat - 48)
  else if 65 ≤ c.toNat ∧ c.toNat ≤ 70 then some (c.toNat - 55)
  else if 97 ≤ c.toNat ∧ c.toNat ≤ 102 then some (c.toNat - 87)
  else none

/-- Greedily read decimal digits: returns (value, digit count, rest). -/
def parseDigitsAux : List Char → Nat → Nat → (Nat × Nat × List Char)
  | [], acc, cnt => (acc, cnt, [])
  | c :: rest, acc, cnt =>
    match digitVal? c with
    | some d => parseDigitsAux rest (acc * 10 + d) (cnt + 1)
    | none => (acc, cnt, c :: rest)

/-- Body of a JSON string after the opening quote, per `json.loads` strict
mode: standard escapes, `\uXXXX` (surrogate pairs are not recombined here),
unescaped control characters rejected.  Returns (characters, rest). -/
def parseStringBody : Nat → List Char → Option (List Char × List Char)
  | 0, _ => none
  | _, [] => none
  | fuel+1, c :: rest =>
    if c = '"' then some ([], rest)
    else if c = '\\' then
      match rest with
      | [] => none
      | e :: rest2 =>
        if e = '"' || e = '\\' || e = '/' then
          (parseStringBody fuel rest2).map (fun p => (e :: p.1, p.2))
        else if e = 'b' then
          (parseStringBody fuel rest2).map (fun p => (Char.ofNat 8 :: p.1, p.2))
        else if e = 'f' then
          (parseStringBody fuel rest2).map (fun p => (Char.ofNat 12 :: p.1, p.2))
        else if e = 'n' then
          (parseStringBody fuel rest2).map (fun p => ('\n' :: p.1, p.2))
        else if e = 'r' then
          (parseStringBody fuel rest2).map (fun p => ('\r' :: p.1, p.2))
        else if e = 't' then
          (parseStringBody fuel rest2).map (fun p => ('\t' :: p.1, p.2))
        else if e = 'u' then
          match rest2 with
          | h1 :: h2 :: h3 :: h4 :: rest3 =>
            match hexVal? h1, hexVal? h2, hexVal? h3, hexVal? h4 with
            | some a, some b, some c2, some d =>
              (parseStringBody fuel rest3).map
                (fun p => (Char.ofNat (a * 4096 + b * 256 + c2 * 16 + d) :: p.1, p.2))
            | _, _, _, _ => none
          | _ => none
        else none
    else if c.toNat < 32 then none
    else (parseStringBody fuel rest).map (fun p => (c :: p.1, p.2))

/-- JSON number: `-? int frac? exp?` with no leading zeros (the `NaN` and
`Infinity` extensions of `json.loads` are not modelled — no float model). -/
def parseNumber (cs : List Char) : Option (ℚ × List Char) :=
  let signSplit : Bool × List Char :=
    match cs with
    | c :: rest => if c = '-' then (true, rest) else (false, cs)
    | [] => (false, [])
  let neg := signSplit.1
  let cs1 := signSplit.2
  match parseDigitsAux cs1 0 0 with
  | (ival, icnt, cs2) =>
    if icnt = 0 then none
    else if (match cs1 with | c :: _ => c = '0' && decide (1 < icnt) | [] => true : Bool) then none
    else
      let fracStep : Option (ℚ × List Char) :=
        match cs2 with
        | c :: rest =>
          if c = '.' then
            match parseDigitsAux rest 0 0 with
            | (fval, fcnt, cs3) =>
              if fcnt = 0 then none
              else some ((ival : ℚ) + (fval : ℚ) / (10 : ℚ) ^ fcnt, cs3)
          else some ((ival : ℚ), cs2)
        | [] => some ((ival : ℚ), cs2)
      match fracStep with
      | none => none
      | some (mant, cs3) =>
        let expStep : Option (ℚ × List Char) :=
          match cs3 with
          | c :: rest =>
            if c = 'e' || c = 'E' then
              let esignSplit : Int × List Char :=
                match rest with
                | d :: r2 =>
                  if d = '+' then (1, r2) else if d = '-' then (-1, r2) else (1, rest)
                | [] => (1, rest)
              match parseDigitsAux esignSplit.2 0 0 with
              | (expVal, ecnt, cs4) =>
                if ecnt = 0 then none
                else some (mant * (10 : ℚ) ^ (esignSplit.1 * (expVal : Int)), cs4)
            else some (mant, cs3)
          | [] => some (mant, cs3)
        match expStep with
        | none => none
        | some (v, cs4) => some ((if neg then -v else v), cs4)

/-- Insert a member into a JSON object's member list the way a Python dict
does: first-occurrence position, last-occurrence value. -/
def jsonMemberSet : List (String × Json) → String → Json → List (String × Json)
  | [], k, v => [(k, v)]
  | (k', v') :: rest, k, v =>
    if k' == k then (k', v) :: rest else (k', v') :: jsonMemberSet rest k v

mutual

/-- One JSON value (fuel-indexed recursive descent over the `json.loads`
grammar). -/
def parseValue : Nat → List Char → Option (Json × List Char)
  | 0, _ => none
  | fuel+1, cs =>
    match skipWs cs with
    | [] => none
    | c :: rest =>
      if c = '"' then
        match parseStringBody (rest.length + 1) rest with
        | some (chars, rest2) => some (Json.str ⟨chars⟩, rest2)
        | none => none
      else if c = lbrace then parseObjRest fuel (skipWs rest)
      else if c = '[' then parseArrRest fuel (skipWs rest)
      else if c = 'n' then
        match rest with
        | 'u' :: 'l' :: 'l' :: rest2 => some (Json.null, rest2)
        | _ => none
      else if c = 't' then
        match rest with
        | 'r' :: 'u' :: 'e' :: rest2 => some (Json.bool true, rest2)
        | _ => none
      else if c = 'f' then
        match rest with
        | 'a' :: 'l' :: 's' :: 'e' :: rest2 => some (Json.bool false, rest2)
        | _ => none
      else
        match parseNumber (c :: rest) with
        | some (q, rest2) => some (Json.num q, rest2)
        | none => none

/-- Array contents after `[` (whitespace already skipped). -/
def parseArrRest : Nat → List Char → Option (Json × List Char)
  | 0, _ => none
  | fuel+1, cs =>
    match cs with
    | [] => none
    | c :: rest =>
      if c = ']' then some (Json.arr [], rest)
      else
        match parseValue fuel cs with
        | some (v, rest2) => parseArrTail fuel [v] rest2
        | none => none

/-- Array items after the first: `, value`* then `]`. -/
def parseArrTail : Nat → List Json → List Char → Option (Json × List Char)
  | 0, _, _ => none
  | fuel+1, acc, cs =>
    match skipWs cs with
    | [] => none
    | c :: rest =>
      if c = ',' then
        match parseValue fuel rest with
        | some (v, rest2) => parseArrTail fuel (acc ++ [v]) rest2
        | none => none
      else if c = ']' then some (Json.arr acc, rest)
      else none

/-- Object contents after the opening brace (whitespace already skipped). -/
def parseObjRest : Nat → List Char → Option (Json × List Char)
  | 0, _ => none
  | fuel+1, cs =>
    match cs with
    | [] => none
    | c :: rest =>
      if c = rbrace then some (Json.obj [], rest)
      else if c = '"' then
        match parseStringBody (rest.length + 1) rest with
        | some (key, rest2) =>
          match skipWs rest2 with
          | c2 :: rest3 =>
            if c2 = ':' then
              match parseValue fuel rest3 with
              | some (v, rest4) => parseObjTail fuel (jsonMemberSet [] ⟨key⟩ v) rest4
              | none => none
            else none
          | [] => none
        | none => none
      else none

/-- Object members after the first: `, "key": value`* then the closing
brace. -/
def parseObjTail : Nat → List (String × Json) → List Char → Option (Json × List Char)
  | 0, _, _ => none
  | fuel+1, acc, cs =>
    match skipWs cs with
    | [] => none
    | c :: rest =>
      if c = ',' then
        match skipWs rest with
        | c2 :: rest2 =>
          if c2 = '"' then
            match parseStringBody (rest2.length + 1) rest2 with
            | some (key, rest3) =>
              match skipWs rest3 with
              | c3 :: rest4 =>
                if c3 = ':' then
                  match parseValue fuel rest4 with
                  | some (v, rest5) => parseObjTail fuel (jsonMemberSet acc ⟨key⟩ v) rest5
                  | none => none
                else none
              | [] => none
            | none => none
          else none
        | [] => none
      else if c = rbrace then some (Json.obj acc, rest)
      else none

end

/-- Python `json.loads`: parse one JSON value, allowing surrounding
whitespace; anything else is a `JSONDecodeError`, modelled as `none`.  The
fuel `2 * length + 2` dominates the recursion depth (each level consumes at
least one character every two levels). -/
def json_loads (s : String) : Option Json :=
  match parseValue (2 * s.length + 2) s.data with
  | some (j, rest) => if (skipWs rest).isEmpty then some j else none
  | none => none

/-- Python `str.strip()` whitespace (ASCII subset; unicode spaces are not
modelled). -/
def pyWs (c : Char) : Bool := jsonWs c || c = Char.ofNat 11 || c = Char.ofNat 12

/-- Python `content.strip()`. -/
def pyStrip (s : String) : String :=
  ⟨((s.data.dropWhile pyWs).reverse.dropWhile pyWs).reverse⟩

/-- The persisted file as seen by `_load_data`: missing, or present with some
raw text content. -/
inductive FileState where
  | absent
  | present (content : String)

/-- `StockDatabase._load_data` (src/stock_api.py lines 49–57): read and strip
the file content; an absent file (`FileNotFoundError`), empty stripped
content, or a `JSONDecodeError` all yield the empty dict; otherwise whatever
JSON the file holds is returned without shape validation. -/
def load_data : FileState → Json
  | FileState.absent => Json.obj []
  | FileState.present raw =>
    let content := pyStrip raw
    if content = "" then Json.obj []
    else
      match json_loads content with
      | some j => j
      | none => Json.obj []

/-- Python runtime errors reachable in `create_stock` when the loaded JSON is
not a dict of record dicts, plus the duplicate-symbol `ValueError` (messages
modelled structurally). -/
inductive PyError where
  | valueErrorDuplicate (symbol : String)
  | attributeError (attr : String)
  | typeError (msg : String)
  | keyError (key : String)
  deriving Repr, DecidableEq

/-- Python `data.values()`: attribute lookup fails on a non-dict
(`AttributeError`). -/
def jsonValues : Json → Except PyError (List Json)
  | Json.obj ms => Except.ok (ms.map (fun kv => kv.2))
  | _ => Except.error (PyError.attributeError "values")

/-- Python `stock['symbol']` on an arbitrary loaded value: `KeyError` on a
missing key, `TypeError` when the value is not string-subscriptable. -/
def jsonGetItem (j : Json) (k : String) : Except PyError Json :=
  match j with
  | Json.obj ms =>
    match ms.find? (fun kv => kv.1 == k) with
    | some kv => Except.ok kv.2
    | none => Except.error (PyError.keyError k)
  | _ => Except.error (PyError.typeError "string indices")

/-- Python `==` between a loaded JSON value and a string: only equal strings
compare equal; comparison itself never raises. -/
def pyEqStr (j : Json) (s : String) : Bool :=
  match j with
  | Json.str t => t == s
  | _ => false

/-- The duplicate scan loop of `create_stock` (lines 67–69) over the loaded
values: raises the duplicate `ValueError` on the first raw-equal symbol, or
whatever dynamic error the subscript raises. -/
def findDuplicateSymbol (vals : List Json) (symbol : String) : Except PyError Unit :=
  match vals with
  | [] => Except.ok ()
  | v :: rest =>
    match jsonGetItem v "symbol" with
    | Except.error e => Except.error e
    | Except.ok sym =>
      if pyEqStr sym symbol then Except.error (PyError.valueErrorDuplicate symbol)
      else findDuplicateSymbol rest symbol

/-- `stock.dict()`: the JSON object stored for a record (field order as in the
model, src/stock_api.py lines 12–21). -/
def recToJson (r : StockRec) : Json :=
  Json.obj [("id", Json.str r.id), ("symbol", Json.str r.symbol),
    ("name", Json.str r.name), ("price", Json.num r.price),
    ("change", Json.num r.change), ("volume", Json.num (r.volume : ℚ)),
    ("market_cap", Json.num r.market_cap), ("created_at", Json.str r.created_at),
    ("updated_at", Json.str r.updated_at)]

/-- Python `data[newId] = stock.dict()` on the loaded value; only reachable
after `data.values()` succeeded, hence only the object case matters. -/
def jsonObjSet (j : Json) (k : String) (v : Json) : Json :=
  match j with
  | Json.obj ms => Json.obj (jsonMemberSet ms k v)
  | other => other

/-- `StockDatabase.create_stock` (lines 63–88) applied directly to the value
returned by `_load_data`, keeping Python's dynamic behaviour when that value
is not a dict of records: `.values()` and the symbol subscripts can raise
errors outside the duplicate/absent contract. -/
def create_stock_json (data : Json) (input : StockCreate) (newId now : String) :
    Except PyError (StockRec × Json) :=
  match jsonValues data with
  | Except.error e => Except.error e
  | Except.ok vals =>
    match findDuplicateSymbol vals input.symbol with
    | Except.error e => Except.error e
    | Except.ok _ =>
      let stock : StockRec :=
        { id := newId
          symbol := pyUpper input.symbol
          name := input.name
          price := input.price
          change := input.change
          volume := input.volume
          market_cap := input.market_cap
          created_at := now
          updated_at := now }
      Except.ok (stock, jsonObjSet data newId (recToJson stock))

/-- Sample record with price 10 (shape of the seeded data of
`init_sample_data`), used to instantiate theorems with hypotheses. -/
def recAAPL : StockRec :=
  { id := "u1", symbol := "AAPL", name := "Apple Inc.", price := 10, change := 2
    volume := 100, market_cap := 1000, created_at := "t0", updated_at := "t0" }

/-- Sample record with price 20. -/
def recGOOG : StockRec :=
  { id := "u2", symbol := "GOOG", name := "Alphabet Inc.", price := 20, change := 1
    volume := 200, market_cap := 2000, created_at := "t0", updated_at := "t0" }

/-- Sample record with price 30. -/
def recMSFT : StockRec :=
  { id := "u3", symbol := "MSFT", name := "Microsoft Corp.", price := 30, change := 3
    volume := 300, market_cap := 3000, created_at := "t0", updated_at := "t0" }

/-- Sample record whose symbol is the empty string (reachable through
`update_stock` with an explicitly empty symbol patch). -/
def recBlank : StockRec :=
  { id := "u4", symbol := "", name := "Blank Co.", price := 5, change := 0
    volume := 50, market_cap := 500, created_at := "t0", updated_at := "t0" }

/-- Decidable equality for `Except` results, used to evaluate the store
operations on concrete inputs. -/
instance exceptDecidableEq {ε α : Type} [DecidableEq ε] [DecidableEq α] :
    DecidableEq (Except ε α)
  | Except.error e, Except.error f =>
    if h : e = f then isTrue (by rw [h]) else isFalse (fun hc => h (Except.error.inj hc))
  | Except.error _, Except.ok _ => isFalse (fun hc => Except.noConfusion hc)
  | Except.ok _, Except.error _ => isFalse (fun hc => Except.noConfusion hc)
  | Except.ok x, Except.ok y =>
    if h : x = y then isTrue (by rw [h]) else isFalse (fun hc => h (Except.ok.inj hc))

/-- C1: the claimed invariant — no two distinct records ever share a
case-insensitively equal symbol under create/update sequences — FAILS on the
code.  From the empty store, `create_stock "AAPL"` followed by
`create_stock "aapl"` both succeed (the duplicate scan compares the raw input
`"aapl"` against the stored, uppercased `"AAPL"`), leaving two records under
distinct ids whose symbols are case-insensitively (indeed literally) equal. -/
theorem create_create_breaks_uniqueness_c1 :
    ∃ r1 s1 r2 s2,
      create_stock [] {symbol := "AAPL", name := "Apple Inc.", price := 10} "id1" "t1"
          = Except.ok (r1, s1) ∧
      create_stock s1 {symbol := "aapl", name := "Apple Inc. again", price := 11} "id2" "t2"
          = Except.ok (r2, s2) ∧
      dictLookup s2 "id1" = some r1 ∧ dictLookup s2 "id2" = some r2 ∧
      "id1" ≠ "id2" ∧ pyUpper r1.symbol = pyUpper r2.symbol := by
  refine ⟨⟨"id1", "AAPL", "Apple Inc.", 10, 0, 0, 0, "t1", "t1"⟩,
    [("id1", ⟨"id1", "AAPL", "Apple Inc.", 10, 0, 0, 0, "t1", "t1"⟩)],
    ⟨"id2", "AAPL", "Apple Inc. again", 11, 0, 0, 0, "t2", "t2"⟩,
    [("id1", ⟨"id1", "AAPL", "Apple Inc.", 10, 0, 0, 0, "t1", "t1"⟩),
     ("id2", ⟨"id2", "AAPL", "Apple Inc. again", 11, 0, 0, 0, "t2", "t2"⟩)],
    ?_, ?_, ?_, ?_, ?_, ?_⟩ <;> decide

/-- C2: the claim that `create_stock` rejects a new input whose symbol is
case-insensitively equal to a stored one, regardless of letter case, FAILS on
the code.  With a store already holding symbol "AAPL", creating "aapl"
succeeds and the record count grows from 1 to 2 (the scan
`stock['symbol'] == stock_data.symbol` is case-sensitive and the stored side
is already uppercased). -/
theorem create_lowercase_duplicate_accepted_c2 :
    ∃ r2 s2,
      create_stock [("id1", ⟨"id1", "AAPL", "Apple Inc.", 10, 0, 0, 0, "t1", "t1"⟩)]
          {symbol := "aapl", name := "Apple duplicate", price := 11} "id2" "t2"
          = Except.ok (r2, s2) ∧
      pyUpper "aapl" = pyUpper "AAPL" ∧
      s2.length = 2 := by
  refine ⟨⟨"id2", "AAPL", "Apple duplicate", 11, 0, 0, 0, "t2", "t2"⟩,
    [("id1", ⟨"id1", "AAPL", "Apple Inc.", 10, 0, 0, 0, "t1", "t1"⟩),
     ("id2", ⟨"id2", "AAPL", "Apple duplicate", 11, 0, 0, 0, "t2", "t2"⟩)],
    ?_, ?_, ?_⟩ <;> decide

/-- Helper: the value of every field of `applyPatch r p` as a function of the
patch (unset fields keep the stored value; a set symbol is uppercased unless
empty; `id`, `created_at`, `updated_at` are never touched by the loop). -/
lemma applyPatch_fields (r : StockRec) (p : StockUpdate) :
    (applyPatch r p).symbol = (match p.symbol with
      | some v => if v ≠ "" then pyUpper v else v
      | none => r.symbol) ∧
    (applyPatch r p).name = p.name.getD r.name ∧
    (applyPatch r p).price = p.price.getD r.price ∧
    (applyPatch r p).change = p.change.getD r.change ∧
    (applyPatch r p).volume = p.volume.getD r.volume ∧
    (applyPatch r p).market_cap = p.market_cap.getD r.market_cap ∧
    (applyPatch r p).id = r.id ∧
    (applyPatch r p).created_at = r.created_at ∧
    (applyPatch r p).updated_at = r.updated_at := by
  rcases p with ⟨s, n, pr, c, v, m⟩
  cases s <;> cases n <;> cases pr <;> cases c <;> cases v <;> cases m <;>
    simp [applyPatch]

/-- Helper: a successful `update_stock` call on a present id returns exactly
the patched record stamped with `now`, written back in place. -/
lemma update_stock_ok_shape (store : Store) (stock_id : String) (patch : StockUpdate)
    (now : String) (rec r' : StockRec) (store' : Store)
    (hl : dictLookup store stock_id = some rec)
    (h : update_stock store stock_id patch now = Except.ok (some (r', store'))) :
    r' = { applyPatch rec patch with updated_at := now } ∧
    store' = dictSet store stock_id r' := by
  unfold update_stock at h
  rw [hl] at h
  dsimp only at h
  split at h
  · exact absurd h (by simp)
  · simp only [Except.ok.injEq, Option.some.injEq, Prod.mk.injEq] at h
    obtain ⟨h1, h2⟩ := h
    subst h1
    exact ⟨rfl, h2.symm⟩

/-- C3 counterexample: the claim quantifies over every patch whose symbol
field is present, but a present EMPTY symbol is falsy in Python, so the
duplicate check is skipped.  Here record "2" (`recBlank`) already holds the
case-insensitively equal symbol `""`, yet updating record "1" to symbol `""`
succeeds and changes the collection instead of failing with the duplicate
error. -/
theorem update_conflicting_empty_symbol_accepted_c3 :
    update_stock [("1", recAAPL), ("2", recBlank)] "1" { symbol := some "" } "t2"
        = Except.ok (some (⟨"u1", "", "Apple Inc.", 10, 2, 100, 1000, "t0", "t2"⟩,
            [("1", ⟨"u1", "", "Apple Inc.", 10, 2, 100, 1000, "t0", "t2"⟩),
             ("2", recBlank)])) ∧
    pyUpper recBlank.symbol = pyUpper "" ∧ ("2" : String) ≠ "1" := by
  refine ⟨?_, ?_, ?_⟩ <;> decide

/-- C3 (amended: the patch symbol must be present AND non-empty): if the id is
present and some other record holds a case-insensitively equal symbol,
`update_stock` fails with the duplicate error naming the patch symbol, and the
stored collection is unchanged. -/
theorem update_rejects_conflicting_nonempty_symbol_c3 :
    ∀ (store : Store) (stock_id : String) (patch : StockUpdate) (now s : String),
      patch.symbol = some s → s ≠ "" →
      (dictLookup store stock_id).isSome →
      (∃ kv ∈ store, kv.1 ≠ stock_id ∧ pyUpper kv.2.symbol = pyUpper s) →
      update_stock store stock_id patch now
          = Except.error (DbError.duplicateSymbol s) ∧
      postUpdateStore store stock_id patch now = store := by
  intro store stock_id patch now s hs hne hsome hconf
  obtain ⟨rec, hl⟩ := Option.isSome_iff_exists.mp hsome
  have hdup : (store.any fun kv => kv.1 != stock_id && pyUpper kv.2.symbol == pyUpper s)
      = true := by
    rw [List.any_eq_true]
    obtain ⟨kv, hmem, hkne, hsym⟩ := hconf
    exact ⟨kv, hmem, by rw [Bool.and_eq_true, bne_iff_ne, beq_iff_eq]; exact ⟨hkne, hsym⟩⟩
  have herr : update_stock store stock_id patch now
      = Except.error (DbError.duplicateSymbol s) := by
    unfold update_stock
    rw [hl]
    dsimp only
    rw [hs]
    dsimp only
    rw [hdup, decide_eq_true hne]
    simp
  refine ⟨herr, ?_⟩
  unfold postUpdateStore
  rw [herr]

/-- C3 witness: a concrete conflicting non-empty update is rejected and the
store is untouched. -/
theorem update_rejects_conflicting_nonempty_symbol_c3_witness :
    (({ symbol := some "goog" } : StockUpdate).symbol = some "goog") ∧
    ("goog" : String) ≠ "" ∧
    (dictLookup [("1", recAAPL), ("2", recGOOG)] "1").isSome ∧
    (∃ kv ∈ ([("1", recAAPL), ("2", recGOOG)] : Store),
      kv.1 ≠ "1" ∧ pyUpper kv.2.symbol = pyUpper "goog") ∧
    update_stock [("1", recAAPL), ("2", recGOOG)] "1" { symbol := some "goog" } "t2"
        = Except.error (DbError.duplicateSymbol "goog") ∧
    postUpdateStore [("1", recAAPL), ("2", recGOOG)] "1" { symbol := some "goog" } "t2"
        = [("1", recAAPL), ("2", recGOOG)] :=
  ⟨rfl, by decide, by decide, by decide,
    update_rejects_conflicting_nonempty_symbol_c3
      [("1", recAAPL), ("2", recGOOG)] "1" { symbol := some "goog" } "t2" "goog"
      rfl (by decide) (by decide) (by decide)⟩

/-- C5: partial-update frame.  A price-only patch on a present id succeeds,
sets the price, stamps `updated_at` with the (later) current time and leaves
every other field unchanged; in general an unset patch field never alters the
stored field and a set field (zero/empty included) overwrites it. -/
theorem update_partial_frame_c5 :
    ∀ (store : Store) (stock_id : String) (rec : StockRec) (p : ℚ) (now : String),
      dictLookup store stock_id = some rec →
      rec.updated_at < now →
      (∃ r', update_stock store stock_id { price := some p } now
            = Except.ok (some (r', dictSet store stock_id r')) ∧
        r'.price = p ∧ r'.symbol = rec.symbol ∧ r'.name = rec.name ∧
        r'.change = rec.change ∧ r'.volume = rec.volume ∧
        r'.market_cap = rec.market_cap ∧ r'.id = rec.id ∧
        r'.created_at = rec.created_at ∧ r'.updated_at = now ∧
        rec.updated_at < r'.updated_at) ∧
      (∀ (patch : StockUpdate) (r' : StockRec) (store' : Store),
        update_stock store stock_id patch now = Except.ok (some (r', store')) →
        (patch.symbol = none → r'.symbol = rec.symbol) ∧
        (patch.name = none → r'.name = rec.name) ∧
        (∀ v, patch.name = some v → r'.name = v) ∧
        (patch.price = none → r'.price = rec.price) ∧
        (∀ v, patch.price = some v → r'.price = v) ∧
        (patch.change = none → r'.change = rec.change) ∧
        (∀ v, patch.change = some v → r'.change = v) ∧
        (patch.volume = none → r'.volume = rec.volume) ∧
        (∀ v, patch.volume = some v → r'.volume = v) ∧
        (patch.market_cap = none → r'.market_cap = rec.market_cap) ∧
        (∀ v, patch.market_cap = some v → r'.market_cap = v) ∧
        r'.id = rec.id ∧ r'.created_at = rec.created_at ∧ r'.updated_at = now) := by
  intro store stock_id rec p now hl hlt
  constructor
  · have hok : update_stock store stock_id { price := some p } now
        = Except.ok (some ({ applyPatch rec { price := some p } with updated_at := now },
            dictSet store stock_id
              { applyPatch rec { price := some p } with updated_at := now })) := by
      unfold update_stock
      rw [hl]
      simp
    refine ⟨_, hok, ?_, ?_, ?_, ?_, ?_, ?_, ?_, ?_, rfl, hlt⟩ <;>
      simp [applyPatch]
  · intro patch r' store' h
    obtain ⟨hr', _⟩ := update_stock_ok_shape store stock_id patch now rec r' store' hl h
    obtain ⟨hsy, hna, hpr, hch, hvo, hmc, hid, hcr, hup⟩ := applyPatch_fields rec patch
    subst hr'
    refine ⟨?_, ?_, ?_, ?_, ?_, ?_, ?_, ?_, ?_, ?_, ?_, ?_, ?_, ?_⟩
    · intro h0; show (applyPatch rec patch).symbol = rec.symbol; rw [hsy, h0]
    · intro h0; show (applyPatch rec patch).name = rec.name; rw [hna, h0]; rfl
    · intro v h0; show (applyPatch rec patch).name = v; rw [hna, h0]; rfl
    · intro h0; show (applyPatch rec patch).price = rec.price; rw [hpr, h0]; rfl
    · intro v h0; show (applyPatch rec patch).price = v; rw [hpr, h0]; rfl
    · intro h0; show (applyPatch rec patch).change = rec.change; rw [hch, h0]; rfl
    · intro v h0; show (applyPatch rec patch).change = v; rw [hch, h0]; rfl
    · intro h0; show (applyPatch rec patch).volume = rec.volume; rw [hvo, h0]; rfl
    · intro v h0; show (applyPatch rec patch).volume = v; rw [hvo, h0]; rfl
    · intro h0
      show (applyPatch rec patch).market_cap = rec.market_cap
      rw [hmc, h0]; rfl
    · intro v h0; show (applyPatch rec patch).market_cap = v; rw [hmc, h0]; rfl
    · exact hid
    · exact hcr
    · rfl

/-- C5 witness: the price-only update of a concrete one-record store. -/
theorem update_partial_frame_c5_witness :
    dictLookup [("1", recAAPL)] "1" = some recAAPL ∧
    recAAPL.updated_at < "t1" ∧
    ∃ r', update_stock [("1", recAAPL)] "1" { price := some 99 } "t1"
          = Except.ok (some (r', dictSet [("1", recAAPL)] "1" r')) ∧
      r'.price = 99 ∧ r'.symbol = recAAPL.symbol ∧ r'.name = recAAPL.name ∧
      r'.change = recAAPL.change ∧ r'.volume = recAAPL.volume ∧
      r'.market_cap = recAAPL.market_cap ∧ r'.id = recAAPL.id ∧
      r'.created_at = recAAPL.created_at ∧ r'.updated_at = "t1" ∧
      recAAPL.updated_at < r'.updated_at :=
  ⟨by decide, by simp only [recAAPL, String.lt_iff_toList_lt]; decide,
    (update_partial_frame_c5 [("1", recAAPL)] "1" recAAPL 99 "t1"
      (by decide) (by simp only [recAAPL, String.lt_iff_toList_lt]; decide)).1⟩

/-- C9: an update patch whose symbol is explicitly the empty string skips the
duplicate check entirely (empty strings are falsy), succeeds on any store
whatsoever — including stores where another record's symbol is also empty —
and stores the empty symbol verbatim. -/
theorem update_empty_symbol_skips_duplicate_check_c9 :
    ∀ (store : Store) (stock_id : String) (rec : StockRec) (patch : StockUpdate)
      (now : String),
      dictLookup store stock_id = some rec → patch.symbol = some "" →
      ∃ r' store',
        update_stock store stock_id patch now = Except.ok (some (r', store')) ∧
        r'.symbol = "" := by
  intro store stock_id rec patch now hl hs
  have hok : update_stock store stock_id patch now
      = Except.ok (some ({ applyPatch rec patch with updated_at := now },
          dictSet store stock_id { applyPatch rec patch with updated_at := now })) := by
    unfold update_stock
    rw [hl]
    dsimp only
    rw [hs]
    simp
  refine ⟨_, _, hok, ?_⟩
  have h := (applyPatch_fields rec patch).1
  rw [hs] at h
  simpa using h

/-- C9 witness: updating record "1" to the empty symbol while record "2"
(`recBlank`) already has the empty symbol raises nothing. -/
theorem update_empty_symbol_skips_duplicate_check_c9_witness :
    dictLookup [("1", recAAPL), ("2", recBlank)] "1" = some recAAPL ∧
    (({ symbol := some "" } : StockUpdate).symbol = some "") ∧
    ∃ r' store',
      update_stock [("1", recAAPL), ("2", recBlank)] "1" { symbol := some "" } "t2"
          = Except.ok (some (r', store')) ∧
      r'.symbol = "" :=
  ⟨by decide, rfl,
    update_empty_symbol_skips_duplicate_check_c9 [("1", recAAPL), ("2", recBlank)]
      "1" recAAPL { symbol := some "" } "t2" (by decide) rfl⟩

/-- C4: self-healing load.  An absent file, whitespace-only content, and
content the JSON parser rejects all load as the empty collection (never a
propagated parse error), so any store operation applied to the loaded value
behaves exactly as on the empty store (illustrated for `create_stock`). -/
theorem load_data_self_healing_c4 :
    load_data FileState.absent = Json.obj [] ∧
    (∀ raw, pyStrip raw = "" → load_data (FileState.present raw) = Json.obj []) ∧
    (∀ raw, json_loads (pyStrip raw) = none →
      load_data (FileState.present raw) = Json.obj []) ∧
    (∀ raw, json_loads (pyStrip raw) = none →
      ∀ input newId now,
        create_stock_json (load_data (FileState.present raw)) input newId now
          = create_stock_json (load_data FileState.absent) input newId now) := by
  refine ⟨rfl, ?_, ?_, ?_⟩
  · intro raw h
    simp [load_data, h]
  · intro raw h
    by_cases he : pyStrip raw = "" <;> simp [load_data, he, h]
  · intro raw h input newId now
    have hload : load_data (FileState.present raw) = Json.obj [] := by
      by_cases he : pyStrip raw = "" <;> simp [load_data, he, h]
    rw [hload]
    rfl

/-- C4 witness: a concrete non-JSON file content loads as the empty
collection. -/
theorem load_data_self_healing_c4_witness :
    json_loads (pyStrip "not json at all") = none ∧
    load_data (FileState.present "not json at all") = Json.obj [] :=
  ⟨by rfl, load_data_self_healing_c4.2.2.1 "not json at all" (by rfl)⟩

/-- C10: the load step does not validate the shape of syntactically valid
JSON: whatever value parses is returned as-is (e.g. a JSON array), and
`create_stock` applied to such a loaded value raises an `AttributeError`
(`.values()` on a list) — an error outside the DuplicateSymbol/absent
contract. -/
theorem load_data_no_shape_validation_c10 :
    (∀ raw j, pyStrip raw ≠ "" → json_loads (pyStrip raw) = some j →
      load_data (FileState.present raw) = j) ∧
    load_data (FileState.present "[1, 2]") = Json.arr [Json.num 1, Json.num 2] ∧
    (∀ elems input newId now,
      create_stock_json (Json.arr elems) input newId now
        = Except.error (PyError.attributeError "values")) ∧
    (∀ s, PyError.attributeError "values" ≠ PyError.valueErrorDuplicate s) := by
  refine ⟨?_, by rfl, ?_, ?_⟩
  · intro raw j hne hj
    simp [load_data, hne, hj]
  · intro elems input newId now
    rfl
  · intro s hc
    exact PyError.noConfusion hc

/-- C10 witness: the concrete array file content is loaded as-is and breaks
`create_stock` with the attribute error. -/
theorem load_data_no_shape_validation_c10_witness :
    pyStrip "[1, 2]" ≠ "" ∧
    json_loads (pyStrip "[1, 2]") = some (Json.arr [Json.num 1, Json.num 2]) ∧
    load_data (FileState.present "[1, 2]") = Json.arr [Json.num 1, Json.num 2] :=
  ⟨by decide, by rfl,
    (load_data_no_shape_validation_c10).1 "[1, 2]"
      (Json.arr [Json.num 1, Json.num 2]) (by decide) (by rfl)⟩

/-- Helper: a key outside the key set has no entry. -/
lemma dictLookup_eq_none_of_not_mem (l : Store) (k : String)
    (h : k ∉ l.map Prod.fst) : dictLookup l k = none := by
  unfold dictLookup
  have hf : l.find? (fun kv => kv.1 == k) = none := by
    rw [List.find?_eq_none]
    intro kv hkv
    simp only [beq_iff_eq]
    intro he
    exact h (List.mem_map.mpr ⟨kv, hkv, he⟩)
  rw [hf]

/-- Helper: on a store with unique keys, removing a key removes its entry. -/
lemma dictLookup_dictRemove_self (l : Store) (k : String)
    (h : (l.map Prod.fst).Nodup) : dictLookup (dictRemove l k) k = none := by
  induction l with
  | nil => rfl
  | cons kv rest ih =>
    obtain ⟨hk, v⟩ := kv
    rw [List.map_cons, List.nodup_cons] at h
    unfold dictRemove
    by_cases he : hk = k
    · subst he
      simp only [beq_self_eq_true, if_true]
      exact dictLookup_eq_none_of_not_mem rest hk h.1
    · rw [if_neg (by simpa using he)]
      unfold dictLookup
      rw [List.find?_cons_of_neg _ (by simpa using he)]
      exact ih h.2

/-- Helper: removing one key never disturbs entries under a different key. -/
lemma dictLookup_dictRemove_other (l : Store) (k id : String) (hne : k ≠ id) :
    dictLookup (dictRemove l id) k = dictLookup l k := by
  induction l with
  | nil => rfl
  | cons kv rest ih =>
    obtain ⟨hk, v⟩ := kv
    unfold dictRemove
    by_cases he : hk = id
    · rw [if_pos (by simpa using he)]
      have hkk : hk ≠ k := fun h => hne (h ▸ he)
      conv_rhs => unfold dictLookup
      rw [List.find?_cons_of_neg _ (by simpa using hkk)]
      rfl
    · rw [if_neg (by simpa using he)]
      unfold dictLookup
      by_cases hkk : hk = k
      · rw [List.find?_cons_of_pos _ (by simpa using hkk),
          List.find?_cons_of_pos _ (by simpa using hkk)]
      · rw [List.find?_cons_of_neg _ (by simpa using hkk),
          List.find?_cons_of_neg _ (by simpa using hkk)]
        exact ih

/-- Helper: membership agrees with lookup success. -/
lemma dictContains_eq_isSome (l : Store) (k : String) :
    dictContains l k = (dictLookup l k).isSome := by
  induction l with
  | nil => rfl
  | cons kv rest ih =>
    unfold dictContains dictLookup
    by_cases h : kv.1 = k
    · simp [List.any_cons, List.find?_cons_of_pos, h]
    · rw [List.find?_cons_of_neg _ (by simpa using h)]
      simp only [List.any_cons, beq_eq_false_iff_ne.mpr h, Bool.false_or]
      exact ih

/-- C6: delete semantics.  Deleting an absent id returns `false` and leaves the
collection untouched (nothing is saved); deleting a present id removes exactly
that entry (all other ids keep their records), returns `true`, and a second
delete of the same id then yields `false` with the collection unchanged. -/
theorem delete_semantics_c6 :
    ∀ (store : Store) (stock_id : String),
      (dictContains store stock_id = false →
        delete_stock store stock_id = (false, store)) ∧
      ((store.map Prod.fst).Nodup → dictContains store stock_id = true →
        (delete_stock store stock_id).1 = true ∧
        (delete_stock store stock_id).2 = dictRemove store stock_id ∧
        dictLookup (dictRemove store stock_id) stock_id = none ∧
        (∀ k, k ≠ stock_id →
          dictLookup (dictRemove store stock_id) k = dictLookup store k) ∧
        delete_stock (dictRemove store stock_id) stock_id
          = (false, dictRemove store stock_id)) := by
  intro store stock_id
  constructor
  · intro h
    unfold delete_stock
    rw [h]
    rfl
  · intro hnd h
    have hdel : delete_stock store stock_id = (true, dictRemove store stock_id) := by
      unfold delete_stock
      rw [h]
      rfl
    have hnone : dictLookup (dictRemove store stock_id) stock_id = none :=
      dictLookup_dictRemove_self store stock_id hnd
    have hgone : dictContains (dictRemove store stock_id) stock_id = false := by
      rw [dictContains_eq_isSome, hnone]
      rfl
    refine ⟨by rw [hdel], by rw [hdel], hnone,
      fun k hk => dictLookup_dictRemove_other store k stock_id hk, ?_⟩
    unfold delete_stock
    rw [hgone]
    rfl

/-- C6 witness: both branches on a concrete one-record store — an absent id,
then the present id twice, observing (true, false). -/
theorem delete_semantics_c6_witness :
    delete_stock [("1", recAAPL)] "9" = (false, [("1", recAAPL)]) ∧
    (delete_stock [("1", recAAPL)] "1").1 = true ∧
    dictLookup (delete_stock [("1", recAAPL)] "1").2 "1" = none ∧
    delete_stock (delete_stock [("1", recAAPL)] "1").2 "1"
      = (false, (delete_stock [("1", recAAPL)] "1").2) := by
  have h1 := (delete_semantics_c6 [("1", recAAPL)] "9").1 (by decide)
  have h2 := (delete_semantics_c6 [("1", recAAPL)] "1").2 (by decide) (by decide)
  refine ⟨h1, h2.1, ?_, ?_⟩
  · rw [h2.2.1]
    exact h2.2.2.1
  · rw [h2.2.1]
    exact h2.2.2.2.2

/-- Helper: search continues past a prefix with no match. -/
lemma find?_append_of_none {α : Type} (p : α → Bool) (l1 l2 : List α)
    (h : l1.find? p = none) : (l1 ++ l2).find? p = l2.find? p := by
  induction l1 with
  | nil => rfl
  | cons a rest ih =>
    by_cases hp : p a
    · rw [List.find?_cons_of_pos _ hp] at h
      exact absurd h (by simp)
    · rw [List.find?_cons_of_neg _ hp] at h
      rw [List.cons_append, List.find?_cons_of_neg _ hp]
      exact ih h

/-- Helper: assigning to a fresh key appends the entry. -/
lemma dictSet_not_contains (l : Store) (k : String) (v : StockRec)
    (h : dictContains l k = false) : dictSet l k v = l ++ [(k, v)] := by
  induction l with
  | nil => rfl
  | cons kv rest ih =>
    obtain ⟨hk, w⟩ := kv
    unfold dictContains at h
    simp only [List.any_cons, Bool.or_eq_false_iff] at h
    unfold dictSet
    rw [if_neg (by simpa using h.1)]
    rw [List.cons_append]
    congr 1
    exact ih h.2

/-- C8: create/lookup round trip.  On any store with no record whose symbol is
case-insensitively "AAPL" and a fresh id, creating
`{symbol: "AAPL", name: "Apple Inc.", price: 175.43}` succeeds, and
`get_stock_by_symbol "aapl"` then returns that very record, with the
uppercase-normalized symbol "AAPL" and price exactly 175.43. -/
theorem create_get_roundtrip_c8 :
    ∀ (store : Store) (newId now : String),
      (∀ kv ∈ store, pyUpper kv.2.symbol ≠ "AAPL") →
      dictContains store newId = false →
      ∃ r store',
        create_stock store { symbol := "AAPL", name := "Apple Inc.", price := 175.43 }
            newId now = Except.ok (r, store') ∧
        get_stock_by_symbol store' "aapl" = some r ∧
        r.symbol = "AAPL" ∧ r.price = 175.43 := by
  intro store newId now hno hfresh
  have hany : (store.any fun kv => kv.2.symbol == "AAPL") = false := by
    rw [List.any_eq_false]
    intro kv hkv
    simp only [beq_iff_eq]
    intro he
    exact hno kv hkv (by rw [he]; decide)
  have hok : create_stock store
      { symbol := "AAPL", name := "Apple Inc.", price := 175.43 } newId now
      = Except.ok
          ({ id := newId, symbol := pyUpper "AAPL", name := "Apple Inc.",
             price := 175.43, change := 0, volume := 0, market_cap := 0,
             created_at := now, updated_at := now },
           store ++ [(newId,
             { id := newId, symbol := pyUpper "AAPL", name := "Apple Inc.",
               price := 175.43, change := 0, volume := 0, market_cap := 0,
               created_at := now, updated_at := now })]) := by
    unfold create_stock
    dsimp only
    rw [hany]
    rw [dictSet_not_contains store newId _ hfresh]
    simp
  refine ⟨_, _, hok, ?_, by exact (by decide : pyUpper "AAPL" = "AAPL"), rfl⟩
  have hfindnone : store.find? (fun kv => pyUpper kv.2.symbol == pyUpper "aapl")
      = none := by
    rw [List.find?_eq_none]
    intro kv hkv
    have hup : pyUpper "aapl" = "AAPL" := by decide
    rw [hup]
    simp only [beq_iff_eq]
    exact hno kv hkv
  unfold get_stock_by_symbol
  rw [find?_append_of_none _ _ _ hfindnone]
  rw [List.find?_cons_of_pos _
    (by exact (by decide : (pyUpper (pyUpper "AAPL") == pyUpper "aapl") = true))]

/-- Helper: the Python `max(..., key=price)` fold is `List.argmax` with a
non-`none` accumulator. -/
lemma foldl_argAux_max (xs : List StockRec) (x : StockRec) :
    List.foldl (List.argAux fun b c => c.price < b.price) (some x) xs
      = some (pyMax x xs) := by
  induction xs generalizing x with
  | nil => rfl
  | cons y ys ih =>
    have hstep : List.argAux (fun b c => c.price < b.price) (some x) y
        = some (if x.price < y.price then y else x) := by
      unfold List.argAux
      dsimp only
      split <;> rfl
    show List.foldl (List.argAux fun b c => c.price < b.price)
        (List.argAux (fun b c => c.price < b.price) (some x) y) ys
      = some (pyMax x (y :: ys))
    rw [hstep, ih]
    rfl

/-- Helper: the Python `min(..., key=price)` fold is `List.argmin` with a
non-`none` accumulator. -/
lemma foldl_argAux_min (xs : List StockRec) (x : StockRec) :
    List.foldl (List.argAux fun b c => b.price < c.price) (some x) xs
      = some (pyMin x xs) := by
  induction xs generalizing x with
  | nil => rfl
  | cons y ys ih =>
    have hstep : List.argAux (fun b c => b.price < c.price) (some x) y
        = some (if y.price < x.price then y else x) := by
      unfold List.argAux
      dsimp only
      split <;> rfl
    show List.foldl (List.argAux fun b c => b.price < c.price)
        (List.argAux (fun b c => b.price < c.price) (some x) y) ys
      = some (pyMin x (y :: ys))
    rw [hstep, ih]
    rfl

/-- Helper: `pyMax` is `List.argmax` of the price on the non-empty list. -/
lemma pyMax_eq_argmax (x : StockRec) (xs : List StockRec) :
    List.argmax (fun r => r.price) (x :: xs) = some (pyMax x xs) := by
  show List.foldl (List.argAux fun b c => (fun r => r.price) c < (fun r => r.price) b)
      (List.argAux (fun b c => (fun r => r.price) c < (fun r => r.price) b) none x) xs
    = some (pyMax x xs)
  exact foldl_argAux_max xs x

/-- Helper: `pyMin` is `List.argmin` of the price on the non-empty list. -/
lemma pyMin_eq_argmin (x : StockRec) (xs : List StockRec) :
    List.argmin (fun r => r.price) (x :: xs) = some (pyMin x xs) := by
  show List.foldl (List.argAux fun b c => (fun r => r.price) b < (fun r => r.price) c)
      (List.argAux (fun b c => (fun r => r.price) b < (fun r => r.price) c) none x) xs
    = some (pyMin x xs)
  exact foldl_argAux_min xs x

/-- C7: stats on three records priced 10/20/30: count 3, average price 20
(the rounded mean), total market cap the sum of the three, max-price symbol
from the price-30 record, min-price symbol from the price-10 record.  In
general the reported max/min symbols come from a maximal/minimal-price record
occurring no later than any other record of equally extreme price — the first
encountered on ties (Python `max`/`min` replace only on strict
improvement). -/
theorem get_stats_three_records_c7 :
    (∀ (k1 k2 k3 : String) (r1 r2 r3 : StockRec),
      k1 ≠ k2 → k1 ≠ k3 → k2 ≠ k3 →
      r1.price = 10 → r2.price = 20 → r3.price = 30 →
      get_stats (get_all_stocks [(k1, r1), (k2, r2), (k3, r3)])
        = { total_count := 3, avg_price := 20,
            total_market_cap := r1.market_cap + r2.market_cap + r3.market_cap,
            max_symbol := some r3.symbol, min_symbol := some r1.symbol }) ∧
    (∀ (x : StockRec) (xs : List StockRec),
      (get_stats (x :: xs)).max_symbol = some (pyMax x xs).symbol ∧
      pyMax x xs ∈ x :: xs ∧
      (∀ a ∈ x :: xs, a.price ≤ (pyMax x xs).price) ∧
      (∀ a ∈ x :: xs, (pyMax x xs).price ≤ a.price →
        (x :: xs).indexOf (pyMax x xs) ≤ (x :: xs).indexOf a) ∧
      (get_stats (x :: xs)).min_symbol = some (pyMin x xs).symbol ∧
      pyMin x xs ∈ x :: xs ∧
      (∀ a ∈ x :: xs, (pyMin x xs).price ≤ a.price) ∧
      (∀ a ∈ x :: xs, a.price ≤ (pyMin x xs).price →
        (x :: xs).indexOf (pyMin x xs) ≤ (x :: xs).indexOf a)) := by
  constructor
  · intro k1 k2 k3 r1 r2 r3 h12 h13 h23 h1 h2 h3
    show get_stats [r1, r2, r3] = _
    simp only [get_stats, get_all_stocks, List.map_cons, List.map_nil, List.sum_cons,
      List.sum_nil, List.length_cons, List.length_nil, pyMax, pyMin, List.foldl_cons,
      List.foldl_nil, h1, h2, h3, StatsResult.mk.injEq]
    norm_num [round2, roundHalfEven]
    refine ⟨by rw [add_assoc], ?_, ?_⟩
    · rw [h2]
      norm_num
    · rw [h1]
      norm_num
  · intro x xs
    obtain ⟨hmem, hmax, hfirst⟩ := List.argmax_eq_some_iff.mp (pyMax_eq_argmax x xs)
    obtain ⟨hmem2, hmin, hfirst2⟩ := List.argmin_eq_some_iff.mp (pyMin_eq_argmin x xs)
    exact ⟨rfl, hmem, hmax, hfirst, rfl, hmem2, hmin, hfirst2⟩

/-- C7 witness: concrete records priced 10, 20, 30. -/
theorem get_stats_three_records_c7_witness :
    ("1" : String) ≠ "2" ∧ ("1" : String) ≠ "3" ∧ ("2" : String) ≠ "3" ∧
    recAAPL.price = 10 ∧ recGOOG.price = 20 ∧ recMSFT.price = 30 ∧
    get_stats (get_all_stocks [("1", recAAPL), ("2", recGOOG), ("3", recMSFT)])
      = { total_count := 3, avg_price := 20,
          total_market_cap := recAAPL.market_cap + recGOOG.market_cap
            + recMSFT.market_cap,
          max_symbol := some recMSFT.symbol, min_symbol := some recAAPL.symbol } :=
  ⟨by decide, by decide, by decide, rfl, rfl, rfl,
    (get_stats_three_records_c7).1 "1" "2" "3" recAAPL recGOOG recMSFT
      (by decide) (by decide) (by decide) rfl rfl rfl⟩

/-- C8 witness: round trip on a concrete store holding only a GOOG record. -/
theorem create_get_roundtrip_c8_witness :
    (∀ kv ∈ ([("1", recGOOG)] : Store), pyUpper kv.2.symbol ≠ "AAPL") ∧
    dictContains [("1", recGOOG)] "id9" = false ∧
    ∃ r store',
      create_stock [("1", recGOOG)]
          { symbol := "AAPL", name := "Apple Inc.", price := 175.43 } "id9" "t5"
          = Except.ok (r, store') ∧
      get_stock_by_symbol store' "aapl" = some r ∧
      r.symbol = "AAPL" ∧ r.price = 175.43 :=
  ⟨by decide, by decide,
    create_get_roundtrip_c8 [("1", recGOOG)] "id9" "t5" (by decide) (by decide)⟩

end StockApi
